import Mathlib

/-!
Verification of the CPU-frequency monitor kernel module
(`src/cpu-freqency/cpu-freqency.c`) against its specification.

The module periodically samples the per-physical-core operating frequency
from `MSR_IA32_PERF_STATUS`, keeps per-slot current/max/min values in a
`cpu_freqs` array, and publishes a text report through a procfs file.

Shallow embedding conventions:
  * Machine unsigned integers become `Nat` (with explicit `% 2 ^ 64`
    hypotheses where the 64-bit width matters).
  * The `first_thread_per_core` scratch array (allocated with
    `kmalloc_array(NR_CPUS, ...)`) is embedded as a function `Nat → Nat`
    together with a bounds-checked access pair `arr_get` / `arr_set`
    returning `Option`; `none` models an out-of-bounds array access
    (undefined behaviour in the C source).
  * The `cpu_freqs` store is embedded as a total function
    `Nat → cpu_freq_info`; the C source only ever indexes it with an
    online CPU id, which is below `NR_CPUS` by construction of the kernel.
  * The `for_each_online_cpu` iteration becomes a fold over the list of
    online CPU ids; the kernel iterates a cpumask in ascending order, so
    theorems that need the order take an explicit sortedness hypothesis.
-/

namespace CpuFreq

/-- The C `struct cpu_freq_info`: the per-logical-CPU slot of the frequency
store, fields `cur_freq` (renamed from `current` in the C source), `max`
and `min`, all `unsigned int` MHz values. -/
structure cpu_freq_info where
  cur_freq : Nat
  max : Nat
  min : Nat
deriving Repr, DecidableEq

/-- Frequency derivation of `read_cpu_frequencies`:
`freq = (msr_value >> 8) & 0xff; freq *= 100;`. -/
def extract_freq (msr_value : Nat) : Nat :=
  ((msr_value >>> 8) &&& 0xff) * 100

/-- The store-update statements of `read_cpu_frequencies` for one slot and
one sampled frequency, in source order:
`cur_freq = freq`, then `if (freq > max) max = freq;`, then
`if (freq < min || min == 0) min = freq;`. -/
def update_slot (info : cpu_freq_info) (freq : Nat) : cpu_freq_info :=
  let info1 : cpu_freq_info := { info with cur_freq := freq }
  let info2 : cpu_freq_info :=
    if freq > info1.max then { info1 with max := freq } else info1
  if freq < info2.min ∨ info2.min = 0 then { info2 with min := freq } else info2

/-- Bounds-checked read of a C array of `size` elements embedded as a
function; `none` is an out-of-bounds access. -/
def arr_get (size : Nat) (a : Nat → Nat) (i : Nat) : Option Nat :=
  if i < size then some (a i) else none

/-- Bounds-checked write to a C array of `size` elements embedded as a
function; `none` is an out-of-bounds access. -/
def arr_set (size : Nat) (a : Nat → Nat) (i v : Nat) : Option (Nat → Nat) :=
  if i < size then some (Function.update a i v) else none

/-- The initialization loop
`for (cpu = 0; cpu < NR_CPUS; cpu++) first_thread_per_core[cpu] = NR_CPUS;`:
every entry of the scratch array holds the sentinel `NR_CPUS`. -/
def init_first_thread_per_core (NR_CPUS : Nat) : Nat → Nat :=
  fun _ => NR_CPUS

/-- The marking statement shared by both passes:
`if (first_thread_per_core[core_id] == NR_CPUS)
   first_thread_per_core[core_id] = cpu;`. -/
def mark_step (NR_CPUS : Nat) (coreId : Nat → Nat) (ftpc : Nat → Nat)
    (cpu : Nat) : Option (Nat → Nat) :=
  match arr_get NR_CPUS ftpc (coreId cpu) with
  | none => none
  | some v =>
      if v = NR_CPUS then arr_set NR_CPUS ftpc (coreId cpu) cpu else some ftpc

/-- One iteration of the `for_each_online_cpu` loop body shared by
`read_cpu_frequencies` and `update_cpu_freq_data`: mark the first thread,
re-read `first_thread_per_core[core_id]`, `continue` unless this CPU is
the first thread of its core, otherwise perform the pass-specific action
`act` (frequency-store update resp. line formatting). -/
def loop_step {α : Type} (NR_CPUS : Nat) (coreId : Nat → Nat)
    (act : α → Nat → α) (st : (Nat → Nat) × α) (cpu : Nat) :
    Option ((Nat → Nat) × α) :=
  match mark_step NR_CPUS coreId st.1 cpu with
  | none => none
  | some ftpc =>
      match arr_get NR_CPUS ftpc (coreId cpu) with
      | none => none
      | some rep =>
          if cpu ≠ rep then some (ftpc, st.2) else some (ftpc, act st.2 cpu)

/-- A whole `for_each_online_cpu` pass: allocate and initialize the
scratch array, fold the loop body over the online CPU ids, return the
pass-specific accumulator. -/
def run_loop {α : Type} (NR_CPUS : Nat) (coreId : Nat → Nat)
    (act : α → Nat → α) (online : List Nat) (init : α) : Option α :=
  (online.foldlM (loop_step NR_CPUS coreId act) (init_first_thread_per_core NR_CPUS, init)).map Prod.snd

/-- The marking-only content of a pass: the final `first_thread_per_core`
array, i.e. the Topology Resolver's representative map (core id ↦ first
online thread of that core, sentinel `NR_CPUS` when the core has none). -/
def resolve_cores (NR_CPUS : Nat) (coreId : Nat → Nat) (online : List Nat) :
    Option (Nat → Nat) :=
  online.foldlM (mark_step NR_CPUS coreId) (init_first_thread_per_core NR_CPUS)

/-- The sampler `read_cpu_frequencies`: for each online CPU that is the first thread
of its core, read the MSR (modelled by the oracle `readMsr`), derive the
frequency and update the slot of the `cpu_freqs` store. -/
def read_cpu_frequencies (NR_CPUS : Nat) (coreId readMsr : Nat → Nat)
    (online : List Nat) (cpu_freqs : Nat → cpu_freq_info) :
    Option (Nat → cpu_freq_info) :=
  run_loop NR_CPUS coreId
    (fun store cpu =>
      Function.update store cpu (update_slot (store cpu) (extract_freq (readMsr cpu))))
    online cpu_freqs

/-- One line of `update_cpu_freq_data`:
`sprintf(ptr, "CPU %u Frequency: %u MHz, Max: %u MHz, Min: %u MHz\n", ...)`. -/
def format_line (cpu : Nat) (info : cpu_freq_info) : String :=
  "CPU " ++ toString cpu ++ " Frequency: " ++ toString info.cur_freq ++
    " MHz, Max: " ++ toString info.max ++ " MHz, Min: " ++ toString info.min ++ " MHz\n"

/-- The formatter `update_cpu_freq_data`: same online-CPU/first-thread traversal as the
sampler, appending one formatted line per representative to the report
buffer (`ptr += len` after each `sprintf`). The result is the full text
that the `sprintf` calls write; the C source imposes no bound from the
4096-byte `cpu_freq_data` buffer on these writes. -/
def update_cpu_freq_data (NR_CPUS : Nat) (coreId : Nat → Nat)
    (online : List Nat) (cpu_freqs : Nat → cpu_freq_info) : Option String :=
  run_loop NR_CPUS coreId
    (fun buf cpu => buf ++ format_line cpu (cpu_freqs cpu)) online ""

/-- Capacity of the report buffer: `static char cpu_freq_data[4096]`. -/
def CPU_FREQ_DATA_SIZE : Nat := 4096

/-- The store initialization of `my_module_init`: `kmalloc_array` returns
uninitialized memory (modelled by the arbitrary `garbage` contents), then
`for_each_possible_cpu(cpu) cpu_freqs[cpu].min = 0;` zeroes only the
`min` field of the possible CPUs' slots. -/
def my_module_init (possible : List Nat) (garbage : Nat → cpu_freq_info) :
    Nat → cpu_freq_info :=
  possible.foldl
    (fun freqs cpu => Function.update freqs cpu { freqs cpu with min := 0 })
    garbage

/-- The host kernel's `simple_read_from_buffer(buf, count, ppos, from,
available)` (fs/libfs.c), called by `proc_read` — external library code,
embedded from its standard semantics with `copy_to_user` assumed to
succeed: negative position is `-EINVAL`, position at or past `available`
delivers zero bytes, otherwise `min count (available - pos)` bytes are
delivered and the position advances by that amount.  `Except.error e`
carries the negative errno, `Except.ok` the (bytes delivered, new
position) pair. -/
def simple_read_from_buffer (count : Nat) (ppos : Int) (available : Nat) :
    Except Int (Nat × Int) :=
  if ppos < 0 then Except.error (-22)
  else if available ≤ ppos.toNat then Except.ok (0, ppos)
  else
    let n := Nat.min count (available - ppos.toNat)
    Except.ok (n, ppos + n)

/-- The endpoint `proc_read`: serve the published report,
`simple_read_from_buffer(buf, count, ppos, cpu_freq_data, strlen(cpu_freq_data))`.
The published report is modelled as the `String` the formatter produced
(the report text never contains a NUL, so `strlen` is its length). -/
def proc_read (cpu_freq_data : String) (count : Nat) (ppos : Int) :
    Except Int (Nat × Int) :=
  simple_read_from_buffer count ppos cpu_freq_data.length

/-- The buffer `static char cpu_freq_data[4096]` is zero-initialized, so before the
first refresh `strlen(cpu_freq_data) = 0`: the published report starts
empty. -/
def initial_cpu_freq_data : String := ""

/-! ## Pure reformulations of the two passes

Under the bounds precondition `coreId cpu < NR_CPUS` every scratch-array
access succeeds, and the monadic folds collapse to pure folds.  The pure
folds are then characterized: the final scratch array maps each core id to
the first online CPU of that core, and the action fires exactly on the
`first_threads` sublist of the online list. -/

/-- The effect of one successful `mark_step` on the scratch array. -/
def mark1 (NR_CPUS : Nat) (coreId : Nat → Nat) (ftpc : Nat → Nat)
    (cpu : Nat) : Nat → Nat :=
  if ftpc (coreId cpu) = NR_CPUS then Function.update ftpc (coreId cpu) cpu else ftpc

/-- The effect of one successful `loop_step` on the scratch array and the
pass accumulator. -/
def pure_step {α : Type} (NR_CPUS : Nat) (coreId : Nat → Nat)
    (act : α → Nat → α) (st : (Nat → Nat) × α) (cpu : Nat) :
    (Nat → Nat) × α :=
  (mark1 NR_CPUS coreId st.1 cpu,
    if cpu ≠ (mark1 NR_CPUS coreId st.1 cpu) (coreId cpu) then st.2
    else act st.2 cpu)

/-- The CPUs on which a pass performs its action (those that pass the
first-thread check), in traversal order. -/
def processed (NR_CPUS : Nat) (coreId : Nat → Nat) :
    (Nat → Nat) → List Nat → List Nat
  | _, [] => []
  | ftpc, c :: l =>
      if c = (mark1 NR_CPUS coreId ftpc c) (coreId c)
      then c :: processed NR_CPUS coreId (mark1 NR_CPUS coreId ftpc c) l
      else processed NR_CPUS coreId (mark1 NR_CPUS coreId ftpc c) l

/-- Specification-side representative list: keep each online CPU whose
core id has not been seen before (the first thread of each core), in
traversal order. -/
def first_threads (coreId : Nat → Nat) (seen : List Nat) :
    List Nat → List Nat
  | [] => []
  | c :: l =>
      if coreId c ∈ seen then first_threads coreId seen l
      else c :: first_threads coreId (coreId c :: seen) l

theorem mark_step_eq (NR_CPUS : Nat) (coreId : Nat → Nat)
    (ftpc : Nat → Nat) (cpu : Nat) (h : coreId cpu < NR_CPUS) :
    mark_step NR_CPUS coreId ftpc cpu = some (mark1 NR_CPUS coreId ftpc cpu) := by
  unfold mark_step mark1
  simp only [arr_get, arr_set, if_pos h]
  split_ifs <;> rfl

theorem loop_step_eq {α : Type} (NR_CPUS : Nat) (coreId : Nat → Nat)
    (act : α → Nat → α) (st : (Nat → Nat) × α) (cpu : Nat)
    (h : coreId cpu < NR_CPUS) :
    loop_step NR_CPUS coreId act st cpu =
      some (pure_step NR_CPUS coreId act st cpu) := by
  unfold loop_step pure_step
  rw [mark_step_eq NR_CPUS coreId st.1 cpu h]
  simp only [arr_get, if_pos h]
  split_ifs <;> rfl

theorem foldlM_loop {α : Type} (NR_CPUS : Nat) (coreId : Nat → Nat)
    (act : α → Nat → α) (l : List Nat) (st : (Nat → Nat) × α)
    (h : ∀ c ∈ l, coreId c < NR_CPUS) :
    l.foldlM (loop_step NR_CPUS coreId act) st =
      some (l.foldl (pure_step NR_CPUS coreId act) st) := by
  induction l generalizing st with
  | nil => rfl
  | cons c l ih =>
      rw [List.foldlM_cons, loop_step_eq NR_CPUS coreId act st c
        (h c (List.mem_cons_self c l))]
      simp only [Option.some_bind, List.foldl_cons]
      exact ih _ (fun x hx => h x (List.mem_cons_of_mem c hx))

theorem foldlM_mark (NR_CPUS : Nat) (coreId : Nat → Nat)
    (l : List Nat) (ftpc : Nat → Nat)
    (h : ∀ c ∈ l, coreId c < NR_CPUS) :
    l.foldlM (mark_step NR_CPUS coreId) ftpc =
      some (l.foldl (mark1 NR_CPUS coreId) ftpc) := by
  induction l generalizing ftpc with
  | nil => rfl
  | cons c l ih =>
      rw [List.foldlM_cons, mark_step_eq NR_CPUS coreId ftpc c
        (h c (List.mem_cons_self c l))]
      simp only [Option.some_bind, List.foldl_cons]
      exact ih _ (fun x hx => h x (List.mem_cons_of_mem c hx))

theorem foldl_pure_snd {α : Type} (NR_CPUS : Nat) (coreId : Nat → Nat)
    (act : α → Nat → α) (l : List Nat) (ftpc : Nat → Nat) (a : α) :
    (l.foldl (pure_step NR_CPUS coreId act) (ftpc, a)).2 =
      (processed NR_CPUS coreId ftpc l).foldl act a := by
  induction l generalizing ftpc a with
  | nil => rfl
  | cons c l ih =>
      rw [List.foldl_cons]
      unfold processed
      by_cases hc : c = (mark1 NR_CPUS coreId ftpc c) (coreId c)
      · rw [if_pos hc, List.foldl_cons]
        unfold pure_step
        rw [if_neg (by simpa using hc)]
        exact ih _ _
      · rw [if_neg hc]
        unfold pure_step
        rw [if_pos (by simpa using hc)]
        exact ih _ _

/-- A scratch-array entry that already holds a non-sentinel value is never
overwritten by later marking steps. -/
theorem foldl_mark1_mono (NR_CPUS : Nat) (coreId : Nat → Nat)
    (l : List Nat) (ftpc : Nat → Nat) (i : Nat) (h : ftpc i ≠ NR_CPUS) :
    l.foldl (mark1 NR_CPUS coreId) ftpc i = ftpc i := by
  induction l generalizing ftpc with
  | nil => rfl
  | cons c l ih =>
      rw [List.foldl_cons]
      have hstep : mark1 NR_CPUS coreId ftpc c i = ftpc i := by
        unfold mark1
        split_ifs with hm
        · rcases eq_or_ne i (coreId c) with rfl | hne
          · exact absurd hm h
          · exact Function.update_noteq hne _ _
        · rfl
      rw [ih _ (by rw [hstep]; exact h), hstep]

/-- Characterization of the final scratch array: each entry is the first
CPU of the traversal whose core id equals that index (the sentinel when
there is none). -/
theorem foldl_mark1_apply (NR_CPUS : Nat) (coreId : Nat → Nat)
    (l : List Nat) (hl : ∀ c ∈ l, c < NR_CPUS) (ftpc : Nat → Nat) (i : Nat) :
    l.foldl (mark1 NR_CPUS coreId) ftpc i =
      if ftpc i = NR_CPUS
      then (l.filter (fun c => coreId c = i)).headD NR_CPUS
      else ftpc i := by
  induction l generalizing ftpc with
  | nil => by_cases hi : ftpc i = NR_CPUS <;> simp [hi]
  | cons c l ih =>
      rw [List.foldl_cons]
      have hc : c < NR_CPUS := hl c (List.mem_cons_self c l)
      have hl' : ∀ x ∈ l, x < NR_CPUS :=
        fun x hx => hl x (List.mem_cons_of_mem c hx)
      by_cases hcim : coreId c = i
      · subst hcim
        by_cases hi : ftpc (coreId c) = NR_CPUS
        · have hup : mark1 NR_CPUS coreId ftpc c (coreId c) = c := by
            unfold mark1
            rw [if_pos hi, Function.update_same]
          rw [foldl_mark1_mono NR_CPUS coreId l _ _ (by rw [hup]; omega), hup,
            if_pos hi]
          simp
        · have hup : mark1 NR_CPUS coreId ftpc c = ftpc := by
            unfold mark1
            rw [if_neg hi]
          rw [hup, ih hl' ftpc, if_neg hi, if_neg hi]
      · have hup : mark1 NR_CPUS coreId ftpc c i = ftpc i := by
          unfold mark1
          split_ifs with hm
          · exact Function.update_noteq (fun hh => hcim hh.symm) _ _
          · rfl
        have hfil : (c :: l).filter (fun x => coreId x = i) =
            l.filter (fun x => coreId x = i) := by
          simp [List.filter_cons, hcim]
        rw [ih hl' _, hup, hfil]

theorem first_threads_sublist (coreId : Nat → Nat) (l : List Nat) :
    ∀ seen, (first_threads coreId seen l).Sublist l := by
  induction l with
  | nil => intro seen; exact List.Sublist.refl []
  | cons c l ih =>
      intro seen
      unfold first_threads
      split_ifs
      · exact (ih seen).cons c
      · exact (ih (coreId c :: seen)).cons₂ c

theorem first_threads_sorted (coreId : Nat → Nat) (l : List Nat) (seen : List Nat)
    (hs : l.Sorted (· < ·)) : (first_threads coreId seen l).Sorted (· < ·) :=
  List.Pairwise.sublist (first_threads_sublist coreId l seen) hs

/-- The CPUs a pass acts on are exactly the first threads of the
not-yet-seen cores, where `seen` cores are the non-sentinel entries of the
scratch array and those entries do not collide with upcoming CPU ids. -/
theorem processed_eq_first_threads (NR_CPUS : Nat) (coreId : Nat → Nat)
    (l : List Nat) (h1 : ∀ c ∈ l, c < NR_CPUS) (hnd : l.Nodup) :
    ∀ (ftpc : Nat → Nat) (seen : List Nat),
      (∀ i, ftpc i = NR_CPUS ↔ i ∉ seen) →
      (∀ i, ftpc i ≠ NR_CPUS → ftpc i ∉ l) →
      processed NR_CPUS coreId ftpc l = first_threads coreId seen l := by
  induction l with
  | nil => intro ftpc seen _ _; rfl
  | cons c l ih =>
      intro ftpc seen hseen hvals
      have hc : c < NR_CPUS := h1 c (List.mem_cons_self c l)
      have h1' : ∀ x ∈ l, x < NR_CPUS :=
        fun x hx => h1 x (List.mem_cons_of_mem c hx)
      have hcl : c ∉ l := (List.nodup_cons.mp hnd).1
      have hnd' : l.Nodup := (List.nodup_cons.mp hnd).2
      unfold processed first_threads
      by_cases hmem : coreId c ∈ seen
      · have hne : ftpc (coreId c) ≠ NR_CPUS :=
          fun hEq => ((hseen _).mp hEq) hmem
        have hm1 : mark1 NR_CPUS coreId ftpc c = ftpc := by
          unfold mark1; rw [if_neg hne]
        have hnotc : c ≠ ftpc (coreId c) := by
          intro hEq
          exact hvals (coreId c) hne (hEq ▸ List.mem_cons_self c l)
        rw [if_pos hmem, hm1, if_neg (fun hh => hnotc hh)]
        exact ih h1' hnd' ftpc seen hseen
          (fun i hi => fun hl => hvals i hi (List.mem_cons_of_mem c hl))
      · have hNR : ftpc (coreId c) = NR_CPUS := (hseen _).mpr hmem
        have hm1 : mark1 NR_CPUS coreId ftpc c =
            Function.update ftpc (coreId c) c := by
          unfold mark1; rw [if_pos hNR]
        have hupc : c = Function.update ftpc (coreId c) c (coreId c) :=
          (Function.update_same (coreId c) c ftpc).symm
        rw [if_neg hmem, hm1, if_pos hupc]
        congr 1
        refine ih h1' hnd' _ (coreId c :: seen) ?_ ?_
        · intro i
          rcases eq_or_ne i (coreId c) with rfl | hi
          · simp [Function.update_same]
            omega
          · rw [Function.update_noteq hi]
            rw [hseen i]
            simp [hi]
        · intro i hi
          rcases eq_or_ne i (coreId c) with rfl | hne
          · rw [Function.update_same]
            exact hcl
          · rw [Function.update_noteq hne] at hi ⊢
            exact fun hl => hvals i hi (List.mem_cons_of_mem c hl)

/-- Starting from the freshly initialized scratch array, the acted-on CPUs
are exactly `first_threads coreId [] online`. -/
theorem processed_init_eq (NR_CPUS : Nat) (coreId : Nat → Nat)
    (online : List Nat) (h1 : ∀ c ∈ online, c < NR_CPUS)
    (hnd : online.Nodup) :
    processed NR_CPUS coreId (init_first_thread_per_core NR_CPUS) online =
      first_threads coreId [] online := by
  refine processed_eq_first_threads NR_CPUS coreId online h1 hnd _ [] ?_ ?_
  · intro i; simp [init_first_thread_per_core]
  · intro i hi; exact absurd rfl hi

/-- Under the bounds precondition a whole pass succeeds and computes the
fold of its action over the acted-on CPUs. -/
theorem run_loop_eq {α : Type} (NR_CPUS : Nat) (coreId : Nat → Nat)
    (act : α → Nat → α) (online : List Nat) (init : α)
    (h2 : ∀ c ∈ online, coreId c < NR_CPUS) :
    run_loop NR_CPUS coreId act online init =
      some ((processed NR_CPUS coreId (init_first_thread_per_core NR_CPUS)
        online).foldl act init) := by
  unfold run_loop
  rw [foldlM_loop NR_CPUS coreId act online _ h2]
  simp only [Option.map_some']
  rw [foldl_pure_snd]

/-- Under the bounds precondition the resolver succeeds and computes the
pure marking fold. -/
theorem resolve_cores_eq (NR_CPUS : Nat) (coreId : Nat → Nat)
    (online : List Nat) (h2 : ∀ c ∈ online, coreId c < NR_CPUS) :
    resolve_cores NR_CPUS coreId online =
      some (online.foldl (mark1 NR_CPUS coreId)
        (init_first_thread_per_core NR_CPUS)) :=
  foldlM_mark NR_CPUS coreId online _ h2

/-- A fold of slot updates leaves every slot outside the folded list
unchanged. -/
theorem foldl_update_frame {β : Type} (v : (Nat → β) → Nat → β)
    (L : List Nat) (s0 : Nat → β) (c : Nat) (hc : c ∉ L) :
    (L.foldl (fun s x => Function.update s x (v s x)) s0) c = s0 c := by
  induction L generalizing s0 with
  | nil => rfl
  | cons x L ih =>
      rw [List.foldl_cons, ih _ (fun h => hc (List.mem_cons_of_mem x h))]
      have hcx : c ≠ x := fun h => hc (by rw [h]; exact List.mem_cons_self x L)
      exact Function.update_noteq hcx _ _

/-- Folding line-appends equals appending the joined lines. -/
theorem foldl_append_join (store : Nat → cpu_freq_info) (L : List Nat)
    (a : String) :
    L.foldl (fun buf c => buf ++ format_line c (store c)) a =
      a ++ String.join (L.map fun c => format_line c (store c)) := by
  induction L generalizing a with
  | nil => simp [String.join]
  | cons c L ih =>
      rw [List.foldl_cons, ih]
      apply String.ext
      simp [List.append_assoc]

/-! ## Helper lemmas -/

/-- Per-field description of `update_slot`. -/
theorem update_slot_fields (info : cpu_freq_info) (freq : Nat) :
    (update_slot info freq).cur_freq = freq ∧
    (update_slot info freq).max = Nat.max info.max freq ∧
    (update_slot info freq).min =
      if info.min = 0 ∨ freq < info.min then freq else info.min := by
  unfold update_slot
  rcases info with ⟨c, mx, mn⟩
  simp only
  split_ifs <;> simp_all <;> omega

/-! ## Claims -/

theorem string_length_join (l : List String) :
    (String.join l).length = (l.map String.length).sum := by
  induction l with
  | nil => rfl
  | cons s l ih =>
      have hj : String.join (s :: l) = s ++ String.join l := by
        apply String.ext; simp [String.data_join]
      rw [hj, String.length_append, ih, List.map_cons, List.sum_cons]

/-- Core-id map of the spec's worked example: online CPUs 0,1,2,3 with
core ids 0,0,1,1 (`topology_core_id(cpu) = cpu / 2`). -/
def pairCoreId : Nat → Nat := fun c => c / 2

/-- MSR oracle of the worked examples: every CPU reports raw value
`0x1900` (bits 8–15 equal to `0x19`, i.e. 2500 MHz). -/
def exMsr : Nat → Nat := fun _ => 0x1900

/-- Zeroed frequency store for the worked examples. -/
def exStore0 : Nat → cpu_freq_info := fun _ => ⟨0, 0, 0⟩

/-- Frequency store of the C5 worked example: slot 0 holds
(2500, 3400, 1200), slot 2 holds (1800, 1800, 1800). -/
def c5_store : Nat → cpu_freq_info := fun c =>
  if c = 0 then ⟨2500, 3400, 1200⟩
  else if c = 2 then ⟨1800, 1800, 1800⟩
  else ⟨0, 0, 0⟩

/-- C1: after any application of the sampler's update rule, every slot
whose `min` field is non-zero satisfies `min ≤ cur_freq ∧ cur_freq ≤ max`;
this holds for every prior slot state and every input frequency, so the
invariant is established (and in particular preserved) by every update. -/
theorem c1_min_le_current_le_max (info : cpu_freq_info) (freq : Nat)
    (h : (update_slot info freq).min ≠ 0) :
    (update_slot info freq).min ≤ (update_slot info freq).cur_freq ∧
    (update_slot info freq).cur_freq ≤ (update_slot info freq).max := by
  obtain ⟨hc, hm, hn⟩ := update_slot_fields info freq
  rw [hc, hm, hn]
  rw [hn] at h
  split_ifs at h ⊢ with hcond
  · exact ⟨Nat.le_refl _, Nat.le_max_right _ _⟩
  · push_neg at hcond
    exact ⟨hcond.2, Nat.le_max_right _ _⟩

/-- C1 witness: the update applied to a zeroed slot with sample 1200. -/
theorem c1_min_le_current_le_max_witness :
    (update_slot ⟨0, 0, 0⟩ 1200).min ≠ 0 ∧
    ((update_slot ⟨0, 0, 0⟩ 1200).min ≤ (update_slot ⟨0, 0, 0⟩ 1200).cur_freq ∧
     (update_slot ⟨0, 0, 0⟩ 1200).cur_freq ≤ (update_slot ⟨0, 0, 0⟩ 1200).max) :=
  ⟨by decide, c1_min_le_current_le_max ⟨0, 0, 0⟩ 1200 (by decide)⟩

/-- C3: for every 64-bit raw MSR value the derived frequency is the 8-bit
field in bits 8–15 (the value `raw / 2 ^ 8 % 2 ^ 8`) multiplied by 100;
in particular a raw value with bits 8–15 equal to `0x19` yields 2500 MHz. -/
theorem c3_extract_freq_bits (raw : Nat) (h : raw < 2 ^ 64) :
    extract_freq raw = raw / 2 ^ 8 % 2 ^ 8 * 100 ∧
    extract_freq 0xABCD19EF = 2500 := by
  constructor
  · unfold extract_freq
    have h255 : (0xff : Nat) = 2 ^ 8 - 1 := by norm_num
    rw [h255, Nat.and_pow_two_sub_one_eq_mod, Nat.shiftRight_eq_div_pow]
  · decide

/-- C3 witness: instantiated at the raw value `0xABCD19EF`. -/
theorem c3_extract_freq_bits_witness :
    (0xABCD19EF : Nat) < 2 ^ 64 ∧ extract_freq 0xABCD19EF = 2500 :=
  ⟨by norm_num, (c3_extract_freq_bits 0xABCD19EF (by norm_num)).2⟩

/-- C4: one update step sets `cur_freq` to the sample, `max` to the
maximum of the old `max` and the sample, and `min` to the sample exactly
when the old `min` was zero or the sample was below it; and feeding the
sample sequence [1200, 3400, 2000] to a zeroed slot yields
`cur_freq = 2000`, `max = 3400`, `min = 1200`. -/
theorem c4_update_rule_and_sequence :
    (∀ (info : cpu_freq_info) (freq : Nat),
      (update_slot info freq).cur_freq = freq ∧
      (update_slot info freq).max = Nat.max info.max freq ∧
      (update_slot info freq).min =
        if info.min = 0 ∨ freq < info.min then freq else info.min) ∧
    List.foldl update_slot ⟨0, 0, 0⟩ [1200, 3400, 2000] =
      ⟨2000, 3400, 1200⟩ :=
  ⟨update_slot_fields, by decide⟩

/-- C9: a read of the Report Endpoint while the published report is still
in its initial empty state delivers zero bytes and is not an error, for
every requested destination capacity and every (non-negative, i.e.
reachable through the VFS) cursor position. -/
theorem c9_read_before_first_refresh (count : Nat) (ppos : Int)
    (h : 0 ≤ ppos) :
    proc_read initial_cpu_freq_data count ppos = Except.ok (0, ppos) := by
  unfold proc_read simple_read_from_buffer initial_cpu_freq_data
  rw [if_neg (by omega)]
  simp

/-- C9 witness: a 4096-byte read request at cursor 0. -/
theorem c9_read_before_first_refresh_witness :
    (0 : Int) ≤ 0 ∧
    proc_read initial_cpu_freq_data 4096 0 = Except.ok (0, 0) :=
  ⟨le_refl 0, c9_read_before_first_refresh 4096 0 (le_refl 0)⟩

/-- C2: for every online set (iterated in ascending order, as the kernel
does) and core-id map, the Topology Resolver yields exactly one
representative per core that has an online CPU — the lowest-numbered
online CPU of that core — and the sentinel `NR_CPUS` for cores with no
online CPU; in particular for online CPUs {0,1,2,3} with core ids
{0,0,1,1} the representatives are core 0 ↦ CPU 0 and core 1 ↦ CPU 2. -/
theorem c2_topology_resolver :
    (∀ (NR_CPUS : Nat) (coreId : Nat → Nat) (online : List Nat),
      online.Sorted (· < ·) →
      (∀ c ∈ online, c < NR_CPUS) →
      (∀ c ∈ online, coreId c < NR_CPUS) →
      ∃ reps, resolve_cores NR_CPUS coreId online = some reps ∧
        (∀ i, (∃ c ∈ online, coreId c = i) →
          reps i ∈ online ∧ coreId (reps i) = i ∧
          ∀ c ∈ online, coreId c = i → reps i ≤ c) ∧
        (∀ i, (∀ c ∈ online, coreId c ≠ i) → reps i = NR_CPUS)) ∧
    (∃ reps, resolve_cores 8 pairCoreId [0, 1, 2, 3] = some reps ∧
      reps 0 = 0 ∧ reps 1 = 2) := by
  constructor
  · intro NR_CPUS coreId online hs h1 h2
    rw [resolve_cores_eq NR_CPUS coreId online h2]
    refine ⟨_, rfl, ?_, ?_⟩
    · rintro i ⟨c0, hc0, hcore0⟩
      have happ := foldl_mark1_apply NR_CPUS coreId online h1
        (init_first_thread_per_core NR_CPUS) i
      have hinit : init_first_thread_per_core NR_CPUS i = NR_CPUS := rfl
      rw [hinit, if_pos rfl] at happ
      have hc0L : c0 ∈ online.filter (fun c => coreId c = i) :=
        List.mem_filter.mpr ⟨hc0, by simp [hcore0]⟩
      have hLs : (online.filter (fun c => coreId c = i)).Sorted (· < ·) :=
        hs.filter _
      cases hLe : online.filter (fun c => coreId c = i) with
      | nil => rw [hLe] at hc0L; cases hc0L
      | cons hd tl =>
          rw [hLe] at happ
          simp only [List.headD_cons] at happ
          rw [happ]
          have hdL : hd ∈ online.filter (fun c => coreId c = i) := by
            rw [hLe]; exact List.mem_cons_self hd tl
          obtain ⟨hdon, hdi⟩ := List.mem_filter.mp hdL
          refine ⟨hdon, by simpa using hdi, ?_⟩
          intro c hc hci
          have hcL : c ∈ online.filter (fun x => coreId x = i) :=
            List.mem_filter.mpr ⟨hc, by simp [hci]⟩
          rw [hLe] at hcL hLs
          rcases List.mem_cons.mp hcL with rfl | htl
          · exact Nat.le_refl _
          · exact Nat.le_of_lt (List.rel_of_sorted_cons hLs c htl)
    · intro i hnone
      have happ := foldl_mark1_apply NR_CPUS coreId online h1
        (init_first_thread_per_core NR_CPUS) i
      have hinit : init_first_thread_per_core NR_CPUS i = NR_CPUS := rfl
      rw [hinit, if_pos rfl] at happ
      have hfil : online.filter (fun c => coreId c = i) = [] :=
        List.filter_eq_nil_iff.mpr (fun a ha => by simp [hnone a ha])
      rw [happ, hfil]
      rfl
  · exact ⟨_, rfl, rfl, rfl⟩

/-- C2 witness: the general statement instantiated at the worked example
(online CPUs 0–3, core ids 0,0,1,1, `NR_CPUS = 8`). -/
theorem c2_topology_resolver_witness :
    ([0, 1, 2, 3] : List Nat).Sorted (· < ·) ∧
    (∀ c ∈ ([0, 1, 2, 3] : List Nat), c < 8) ∧
    (∀ c ∈ ([0, 1, 2, 3] : List Nat), pairCoreId c < 8) ∧
    (∃ reps, resolve_cores 8 pairCoreId [0, 1, 2, 3] = some reps ∧
      (∀ i, (∃ c ∈ ([0, 1, 2, 3] : List Nat), pairCoreId c = i) →
        reps i ∈ ([0, 1, 2, 3] : List Nat) ∧ pairCoreId (reps i) = i ∧
        ∀ c ∈ ([0, 1, 2, 3] : List Nat), pairCoreId c = i → reps i ≤ c) ∧
      (∀ i, (∀ c ∈ ([0, 1, 2, 3] : List Nat), pairCoreId c ≠ i) → reps i = 8)) :=
  ⟨by decide, by decide, by decide,
    c2_topology_resolver.1 8 pairCoreId [0, 1, 2, 3]
      (by decide) (by decide) (by decide)⟩

/-- C5: the formatter emits exactly one line per representative CPU (the
first threads of the online list), in ascending CPU id order, each line of
the exact `sprintf` format; in particular representatives {0, 2} with
records (2500, 3400, 1200) and (1800, 1800, 1800) produce exactly those
two lines in that order. -/
theorem c5_snapshot_formatter :
    (∀ (NR_CPUS : Nat) (coreId : Nat → Nat) (online : List Nat)
        (store : Nat → cpu_freq_info),
      online.Sorted (· < ·) →
      (∀ c ∈ online, c < NR_CPUS) →
      (∀ c ∈ online, coreId c < NR_CPUS) →
      update_cpu_freq_data NR_CPUS coreId online store =
        some (String.join ((first_threads coreId [] online).map
          (fun c => format_line c (store c)))) ∧
      (first_threads coreId [] online).Sorted (· < ·)) ∧
    update_cpu_freq_data 8 pairCoreId [0, 1, 2, 3] c5_store =
      some ("CPU 0 Frequency: 2500 MHz, Max: 3400 MHz, Min: 1200 MHz\n" ++
        "CPU 2 Frequency: 1800 MHz, Max: 1800 MHz, Min: 1800 MHz\n") := by
  constructor
  · intro NR_CPUS coreId online store hs h1 h2
    have hnd : online.Nodup := hs.imp (fun h => Nat.ne_of_lt h)
    refine ⟨?_, first_threads_sorted coreId online [] hs⟩
    unfold update_cpu_freq_data
    rw [run_loop_eq NR_CPUS coreId _ online _ h2,
      processed_init_eq NR_CPUS coreId online h1 hnd, foldl_append_join,
      String.empty_append]
  · decide

/-- C5 witness: the general statement instantiated at the worked example. -/
theorem c5_snapshot_formatter_witness :
    ([0, 1, 2, 3] : List Nat).Sorted (· < ·) ∧
    (∀ c ∈ ([0, 1, 2, 3] : List Nat), c < 8) ∧
    (∀ c ∈ ([0, 1, 2, 3] : List Nat), pairCoreId c < 8) ∧
    (update_cpu_freq_data 8 pairCoreId [0, 1, 2, 3] c5_store =
      some (String.join ((first_threads pairCoreId [] [0, 1, 2, 3]).map
        (fun c => format_line c (c5_store c)))) ∧
    (first_threads pairCoreId [] [0, 1, 2, 3]).Sorted (· < ·)) :=
  ⟨by decide, by decide, by decide,
    c5_snapshot_formatter.1 8 pairCoreId [0, 1, 2, 3] c5_store
      (by decide) (by decide) (by decide)⟩

/-- C6: the claim says every slot is zero-initialized at startup
(`current = max = min = 0`).  The code allocates `cpu_freqs` with
`kmalloc_array` — which does not zero memory — and then only assigns
`cpu_freqs[cpu].min = 0` for each possible CPU, so `cur_freq` and `max`
keep whatever garbage the allocation contained: with prior heap contents
(7, 7, 7) in every slot, after initialization slot 0 is (7, 7, 0), whose
`max` field is not 0. -/
theorem c6_init_leaves_garbage :
    my_module_init [0, 1, 2, 3] (fun _ => ⟨7, 7, 7⟩) 0 = ⟨7, 7, 0⟩ ∧
    (my_module_init [0, 1, 2, 3] (fun _ => ⟨7, 7, 7⟩) 0).max ≠ 0 := by
  decide

/-- C7: the claim says the formatter truncates or signals overflow and
never writes past the report buffer.  The code uses plain `sprintf` with
no bound: with 70 online CPUs on distinct cores (all at the maximum
derivable frequency 25500 MHz) the pass succeeds and writes a 4190-byte
report — 94 bytes past the end of the 4096-byte `cpu_freq_data` buffer,
with no truncation and no error. -/
theorem c7_formatter_overflows :
    ∃ s, update_cpu_freq_data 70 (fun c => c) (List.range 70)
        (fun _ => ⟨25500, 25500, 25500⟩) = some s ∧
      CPU_FREQ_DATA_SIZE < s.length := by
  have h1 : ∀ c ∈ List.range 70, c < 70 := by
    intro c hc; simpa using hc
  unfold update_cpu_freq_data
  rw [run_loop_eq 70 _ _ _ _ h1,
    processed_init_eq 70 _ _ h1 (List.nodup_range 70), foldl_append_join,
    String.empty_append]
  refine ⟨_, rfl, ?_⟩
  rw [string_length_join]
  rw [show first_threads (fun c => c) [] (List.range 70) = List.range 70 from
    by decide]
  decide

/-- C8: a refresh leaves the slot of every CPU that is not the
representative (first online thread) of its core — including every
offline CPU and every CPU of a core with no online CPU — exactly
unchanged: the sampler succeeds and writes only representative slots. -/
theorem c8_sampler_frame (NR_CPUS : Nat) (coreId readMsr : Nat → Nat)
    (online : List Nat) (store : Nat → cpu_freq_info) (c : Nat)
    (hs : online.Sorted (· < ·))
    (h1 : ∀ x ∈ online, x < NR_CPUS)
    (h2 : ∀ x ∈ online, coreId x < NR_CPUS)
    (hc : c ∉ first_threads coreId [] online) :
    ∃ freqs',
      read_cpu_frequencies NR_CPUS coreId readMsr online store = some freqs' ∧
      freqs' c = store c := by
  have hnd : online.Nodup := hs.imp (fun h => Nat.ne_of_lt h)
  unfold read_cpu_frequencies
  rw [run_loop_eq NR_CPUS coreId _ online store h2,
    processed_init_eq NR_CPUS coreId online h1 hnd]
  exact ⟨_, rfl, foldl_update_frame
    (fun s x => update_slot (s x) (extract_freq (readMsr x))) _ store c hc⟩

/-- C8 witness: CPU 1 (second thread of core 0) keeps its zeroed record
across a refresh of the worked example. -/
theorem c8_sampler_frame_witness :
    ([0, 1, 2, 3] : List Nat).Sorted (· < ·) ∧
    (∀ x ∈ ([0, 1, 2, 3] : List Nat), x < 8) ∧
    (∀ x ∈ ([0, 1, 2, 3] : List Nat), pairCoreId x < 8) ∧
    1 ∉ first_threads pairCoreId [] [0, 1, 2, 3] ∧
    ∃ freqs',
      read_cpu_frequencies 8 pairCoreId exMsr [0, 1, 2, 3] exStore0 =
        some freqs' ∧ freqs' 1 = exStore0 1 :=
  ⟨by decide, by decide, by decide, by decide,
    c8_sampler_frame 8 pairCoreId exMsr [0, 1, 2, 3] exStore0 1
      (by decide) (by decide) (by decide) (by decide)⟩

/-- C10: the `first_thread_per_core` scratch array has `NR_CPUS` entries
but is indexed by physical-core id; under the precondition that every
online CPU's core id is below `NR_CPUS`, every scratch access of the
sampler pass and of the formatter pass is in bounds — in the embedding,
where an out-of-bounds access yields `none`, both passes return `some`. -/
theorem c10_scratch_in_bounds (NR_CPUS : Nat) (coreId readMsr : Nat → Nat)
    (online : List Nat) (store : Nat → cpu_freq_info)
    (h : ∀ c ∈ online, coreId c < NR_CPUS) :
    (read_cpu_frequencies NR_CPUS coreId readMsr online store).isSome ∧
    (update_cpu_freq_data NR_CPUS coreId online store).isSome := by
  unfold read_cpu_frequencies update_cpu_freq_data
  rw [run_loop_eq NR_CPUS coreId _ online store h,
    run_loop_eq NR_CPUS coreId _ online "" h]
  exact ⟨rfl, rfl⟩

/-- C10 witness: both passes succeed on the worked example. -/
theorem c10_scratch_in_bounds_witness :
    (∀ c ∈ ([0, 1, 2, 3] : List Nat), pairCoreId c < 8) ∧
    ((read_cpu_frequencies 8 pairCoreId exMsr [0, 1, 2, 3] exStore0).isSome ∧
     (update_cpu_freq_data 8 pairCoreId [0, 1, 2, 3] exStore0).isSome) :=
  ⟨by decide,
    c10_scratch_in_bounds 8 pairCoreId exMsr [0, 1, 2, 3] exStore0 (by decide)⟩

end CpuFreq
